import Mathlib

/-!
# Verification of the arq CLI supervisor (`src/arq/cli.py`)

Shallow embedding of the process supervision and hot-reload controller of
the arq command-line interface.  The single source file `src/arq/cli.py`
contains three pieces of core logic:

* `worker_on_stop` (lines 78-80): the stop hook installed on the worker,
  which sets the process-local stop event for every signal other than
  `SIGUSR1` (the reload signal);
* `watch_reload` (lines 70-92): the watch-reload controller, an async
  function that creates one worker, schedules its cooperative run,
  and on each change batch yielded by `watchfiles.awatch` signals
  `SIGUSR1`, awaits `worker.close()`, and schedules `worker.async_run()`
  again on the *same* worker object, with a `finally` block that awaits
  `worker.close()` once more before returning;
* `cli` (lines 36-66): the entry-point selector and process fan-out
  launcher: health-check short circuit, tri-state burst binding, and the
  `workers > 1` spawn loop that starts `workers - 1` OS processes before
  running the selected entry point in the calling process.

The embedding records the controller's externally observable actions as
event traces, and models the stop event as a `Bool` threaded through the
signal hook and the watch loop.  External collaborators that are not part
of this repository's source (`create_worker`, `run_worker`, `check_health`
from `arq.worker`, and `watchfiles.awatch`) appear only through the events
the CLI emits towards them, or as opaque function parameters.
-/

namespace Arq

/-- OS signals as used by `cli.py`.  Only the identity of `SIGUSR1` (the
reload signal) matters to the code; the remaining constructors stand for
the other recognized termination signals. -/
inductive Signal
  | SIGUSR1
  | SIGINT
  | SIGTERM
  | SIGABRT
  deriving DecidableEq, Repr

/-- The stop hook installed on the worker by `watch_reload`
(`src/arq/cli.py` lines 78-80):

```python
def worker_on_stop(s: Signals) -> None:
    if s != Signals.SIGUSR1:
        stop_event.set()
```

The `asyncio.Event` is modelled as a `Bool` (`true` = set); the hook
returns the new state of the event. -/
def worker_on_stop (s : Signal) (stop_event : Bool) : Bool :=
  if s ≠ Signal.SIGUSR1 then true else stop_event

/-- A coalesced batch of filesystem change notifications yielded by the
watcher.  The controller never inspects the contents, so changes are
abstract tokens. -/
structure ChangeBatch where
  changes : List Nat
  deriving DecidableEq, Repr

/-- Observable actions of `watch_reload` towards the worker collaborator.
Worker objects are identified by allocation order of `create_worker`;
`cli.py` calls `create_worker` exactly once, so the only identifier that
ever appears in a trace is `0`. -/
inductive WEvent
  | createWorker (id : Nat)
  | setOnStop (id : Nat)
  | scheduleRun (id : Nat)
  | printReload
  | handleSig (id : Nat) (s : Signal)
  | closeWorker (id : Nat)
  deriving DecidableEq, Repr

/-- The body of the `async for` loop in `watch_reload`
(`src/arq/cli.py` lines 86-90): for each batch yielded by `awatch`, print
the reload notice, deliver `SIGUSR1` via `worker.handle_sig`, await
`worker.close()`, and schedule `worker.async_run()` again — all on the
same worker `wid` bound before the loop. -/
def watchLoop (wid : Nat) : List ChangeBatch → List WEvent
  | [] => []
  | _ :: rest =>
      WEvent.printReload :: WEvent.handleSig wid Signal.SIGUSR1 ::
      WEvent.closeWorker wid :: WEvent.scheduleRun wid :: watchLoop wid rest

/-- The trace of the `try` block of `watch_reload`
(`src/arq/cli.py` lines 84-90): set `worker.on_stop`, schedule the first
`worker.async_run()`, then run the watch loop over the batches the
watcher yields before the stop event ends the subscription. -/
def watch_reload_tryBody (batches : List ChangeBatch) : List WEvent :=
  WEvent.setOnStop 0 :: WEvent.scheduleRun 0 :: watchLoop 0 batches

/-- The complete normal-exit trace of `watch_reload`
(`src/arq/cli.py` lines 82-92): `worker = create_worker(worker_settings)`
(the only `create_worker` call), the `try` body, and the `finally` block's
`await worker.close()`. -/
def watch_reload (batches : List ChangeBatch) : List WEvent :=
  WEvent.createWorker 0 :: (watch_reload_tryBody batches ++ [WEvent.closeWorker 0])

/-- The trace of `watch_reload` when an exception propagates from an
arbitrary point inside the `try` block: the body's trace is cut off after
`p` events and the `finally` block still awaits `worker.close()` before
the exception leaves the function. -/
def watch_reload_err (batches : List ChangeBatch) (p : Nat) : List WEvent :=
  WEvent.createWorker 0 ::
    ((watch_reload_tryBody batches).take p ++ [WEvent.closeWorker 0])

/-- Count of `createWorker` events (calls to `create_worker`) in a trace. -/
def countCreates (tr : List WEvent) : Nat :=
  tr.countP fun e => match e with | WEvent.createWorker _ => true | _ => false

/-- Count of `closeWorker` events (awaited `worker.close()` calls) in a trace. -/
def countCloses (tr : List WEvent) : Nat :=
  tr.countP fun e => match e with | WEvent.closeWorker _ => true | _ => false

/-- Count of `scheduleRun` events (`loop.create_task(worker.async_run())`
calls) in a trace. -/
def countScheduleRuns (tr : List WEvent) : Nat :=
  tr.countP fun e => match e with | WEvent.scheduleRun _ => true | _ => false

/-- Effect of one trace event on the number of worker runs currently
scheduled or running in the process: `scheduleRun` starts a run,
`closeWorker` awaits until the current run has wound down. -/
def runStep (n : Nat) : WEvent → Nat
  | WEvent.scheduleRun _ => n + 1
  | WEvent.closeWorker _ => n - 1
  | _ => n

/-- Number of live (scheduled or running) worker runs after a trace. -/
def runningCount (tr : List WEvent) : Nat :=
  tr.foldl runStep 0

/-- Checks that, starting from `n` live runs, every intermediate live-run
count along the trace stays at most 1. -/
def runOk : Nat → List WEvent → Bool
  | n, [] => decide (n ≤ 1)
  | n, e :: rest => decide (n ≤ 1) && runOk (runStep n e) rest

/-- External inputs that can reach the watch-reload controller's process:
a change batch yielded by the watcher, or an OS signal delivered to the
worker (which forwards it to its `on_stop` hook, `worker_on_stop`). -/
inductive ExtEvent
  | fileChange (b : ChangeBatch)
  | signal (s : Signal)
  deriving DecidableEq, Repr

/-- Outcome of observing the controller's `async for` loop after a finite
schedule of external events: either the loop has exited (the `awatch`
subscription ended), or it is still awaiting the next batch.  Either
constructor carries the state of the stop event at that point. -/
inductive LoopOutcome
  | exited (stop_event : Bool)
  | awaiting (stop_event : Bool)
  deriving DecidableEq, Repr

/-- The `async for _ in awatch(path, stop_event=stop_event)` loop of
`watch_reload` (`src/arq/cli.py` line 86) driven by a finite schedule of
external events.  The `awatch` collaborator (external `watchfiles`
library, not part of this repository) is modelled by its documented
contract, restated in the spec's collaborator list: the subscription
yields change batches until it observes that `stop_event` is set, at
which point the iterator terminates and the loop exits.  A delivered
signal reaches the stop event only through `worker_on_stop`; processing a
change batch (a reload cycle) never touches the stop event. -/
def watchLoopRun : Bool → List ExtEvent → LoopOutcome
  | true, _ => LoopOutcome.exited true
  | false, [] => LoopOutcome.awaiting false
  | false, ExtEvent.signal s :: rest => watchLoopRun (worker_on_stop s false) rest
  | false, ExtEvent.fileChange _ :: rest => watchLoopRun false rest

/-- Whether the `async for` loop has terminated. -/
def loopExited : LoopOutcome → Bool
  | LoopOutcome.exited _ => true
  | LoopOutcome.awaiting _ => false

/-- The state of the stop event at the observation point. -/
def loopStopFlag : LoopOutcome → Bool
  | LoopOutcome.exited b => b
  | LoopOutcome.awaiting b => b

/-! ## The CLI entry point (`cli`, `src/arq/cli.py` lines 36-66)

The resolved worker settings object (`import_string(worker_settings)`) is
opaque to `cli`; it is modelled as a `Nat` token that is threaded,
unchanged, into every invocation.  The logging setup (lines 44-50) has no
bearing on any claim and is omitted. -/

/-- The parsed CLI options that reach the body of `cli`.  `burst` is the
tri-state burst option (`--burst` or `--no-burst`) (`default=None`), `watch` is the
validated directory path or `None`, `workers` is the `-w` (long form
`--workers`) integer (default 1, not range-checked by the code). -/
structure CliOpts where
  worker_settings : Nat
  burst : Option Bool
  check : Bool
  watch : Option String
  workers : Int
  deriving DecidableEq, Repr

/-- `kwargs = {} if burst is None else {'burst': burst}`
(`src/arq/cli.py` line 55), the keyword-override dictionary passed to
`run_worker`, modelled as an association list. -/
def bindKwargs (burst : Option Bool) : List (String × Bool) :=
  match burst with
  | none => []
  | some b => [("burst", b)]

/-- One entry-point invocation produced by the fan-out code: either
`run_worker(worker_settings_, **kwargs)` or
`asyncio.run(watch_reload(watch, worker_settings_))`. -/
inductive Invocation
  | runWorkerEntry (settings : Nat) (kwargs : List (String × Bool))
  | watchReloadEntry (path : String) (settings : Nat)
  deriving DecidableEq, Repr

/-- A launch action of `cli`: `Process(target=..., args=...).start()` for
a spawned sibling OS process, or the blocking execution of the entry
point in the calling process. -/
inductive LaunchEvent
  | spawnProcess (inv : Invocation)
  | runInCaller (inv : Invocation)
  deriving DecidableEq, Repr

/-- The result of the body of `cli`: either the health-check short
circuit `exit(check_health(worker_settings_))`, or the ordered list of
launch actions of the selected non-check mode. -/
inductive CliResult
  | exitWith (code : Int)
  | launched (events : List LaunchEvent)
  deriving DecidableEq, Repr

/-- Number of sibling processes started by the `if workers > 1` loop
(`src/arq/cli.py` lines 59-61 and 64-66): `range(workers - 1)` iterations
when `workers > 1`, none otherwise. -/
def spawnCount (workers : Int) : Nat :=
  if 1 < workers then (workers - 1).toNat else 0

/-- The body of `cli` after settings resolution and logging setup
(`src/arq/cli.py` lines 52-66).  `check_health` is the opaque external
health-check routine from `arq.worker`, passed as a parameter:

```python
if check:
    exit(check_health(worker_settings_))
else:
    kwargs = {} if burst is None else {'burst': burst}
    if watch:
        coroutine = watch_reload(watch, worker_settings_)
        if workers > 1:
            for _ in range(workers - 1):
                Process(target=asyncio.run, args=(coroutine,)).start()
        asyncio.run(coroutine)
    else:
        if workers > 1:
            for _ in range(workers - 1):
                Process(target=run_worker, args=(worker_settings_,), kwargs=kwargs).start()
        run_worker(worker_settings_, **kwargs)
``` -/
def cli (check_health : Nat → Int) (opts : CliOpts) : CliResult :=
  if opts.check then
    CliResult.exitWith (check_health opts.worker_settings)
  else
    let kwargs := bindKwargs opts.burst
    match opts.watch with
    | some path =>
        let inv := Invocation.watchReloadEntry path opts.worker_settings
        CliResult.launched
          (List.replicate (spawnCount opts.workers) (LaunchEvent.spawnProcess inv) ++
            [LaunchEvent.runInCaller inv])
    | none =>
        let inv := Invocation.runWorkerEntry opts.worker_settings kwargs
        CliResult.launched
          (List.replicate (spawnCount opts.workers) (LaunchEvent.spawnProcess inv) ++
            [LaunchEvent.runInCaller inv])

/-- The launch actions of a `CliResult` (none on the health-check path). -/
def launchEvents : CliResult → List LaunchEvent
  | CliResult.exitWith _ => []
  | CliResult.launched evs => evs

/-- Count of spawned sibling processes among launch actions. -/
def countSpawn (evs : List LaunchEvent) : Nat :=
  evs.countP fun e => match e with | LaunchEvent.spawnProcess _ => true | _ => false

/-- Count of in-caller executions among launch actions. -/
def countCaller (evs : List LaunchEvent) : Nat :=
  evs.countP fun e => match e with | LaunchEvent.runInCaller _ => true | _ => false

/-- The invocation carried by a launch action. -/
def invOf : LaunchEvent → Invocation
  | LaunchEvent.spawnProcess inv => inv
  | LaunchEvent.runInCaller inv => inv

/-- The entry-point invocation `cli` selects in non-check mode: the
watch-reload controller when `--watch` was given, the plain worker run
otherwise. -/
def entryFor (opts : CliOpts) : Invocation :=
  match opts.watch with
  | some path => Invocation.watchReloadEntry path opts.worker_settings
  | none => Invocation.runWorkerEntry opts.worker_settings (bindKwargs opts.burst)

/-- Outcome of actually executing one invocation in some process.
`watch_reload` begins with `from watchfiles import awatch` inside a
`try`/`except ImportError` that re-raises (`src/arq/cli.py` lines 70-73),
so its outcome depends on whether the optional `watchfiles` library can
be imported; `run_worker` never touches the watcher. -/
inductive RunOutcome
  | importError
  | completed (trace : List WEvent)
  | workerRan (settings : Nat) (kwargs : List (String × Bool))
  deriving DecidableEq, Repr

/-- Execute one invocation.  `watchfilesAvailable` states whether the
optional `watchfiles` dependency is importable in the process; `batches`
is the schedule of change batches the watcher would yield before the stop
event ends the subscription. -/
def execInvocation (watchfilesAvailable : Bool) (batches : List ChangeBatch) :
    Invocation → RunOutcome
  | Invocation.runWorkerEntry s kw => RunOutcome.workerRan s kw
  | Invocation.watchReloadEntry _ _ =>
      if watchfilesAvailable then RunOutcome.completed (watch_reload batches)
      else RunOutcome.importError

/-- Outcome of `cli` as observed from the calling process. -/
inductive CliOutcome
  | exited (code : Int)
  | callerRan (outcome : RunOutcome)
  deriving DecidableEq, Repr

/-- `cli` followed by the execution of the calling process's own branch:
the health-check path exits with `check_health`'s result before any
launch action; otherwise the caller executes the selected entry point
after the spawn loop. -/
def runCli (watchfilesAvailable : Bool) (batches : List ChangeBatch)
    (check_health : Nat → Int) (opts : CliOpts) : CliOutcome :=
  if opts.check then
    CliOutcome.exited (check_health opts.worker_settings)
  else
    CliOutcome.callerRan (execInvocation watchfilesAvailable batches (entryFor opts))

/-! ## Helper lemmas -/

theorem countCreates_watchLoop (wid : Nat) (bs : List ChangeBatch) :
    countCreates (watchLoop wid bs) = 0 := by
  induction bs with
  | nil => rfl
  | cons b rest ih => simp [watchLoop, countCreates, List.countP_cons] at ih ⊢; exact ih

theorem countCloses_watchLoop (wid : Nat) (bs : List ChangeBatch) :
    countCloses (watchLoop wid bs) = bs.length := by
  induction bs with
  | nil => rfl
  | cons b rest ih => simp [watchLoop, countCloses, List.countP_cons] at ih ⊢; omega

theorem countScheduleRuns_watchLoop (wid : Nat) (bs : List ChangeBatch) :
    countScheduleRuns (watchLoop wid bs) = bs.length := by
  induction bs with
  | nil => rfl
  | cons b rest ih => simp [watchLoop, countScheduleRuns, List.countP_cons] at ih ⊢; omega

theorem countCreates_watch_reload (bs : List ChangeBatch) :
    countCreates (watch_reload bs) = 1 := by
  have h := countCreates_watchLoop 0 bs
  simp only [countCreates] at h
  simp only [watch_reload, watch_reload_tryBody, countCreates, List.cons_append,
    List.countP_cons, List.countP_append, List.countP_nil, h]
  rfl

theorem countCloses_watch_reload (bs : List ChangeBatch) :
    countCloses (watch_reload bs) = bs.length + 1 := by
  have h := countCloses_watchLoop 0 bs
  simp only [countCloses] at h
  simp only [watch_reload, watch_reload_tryBody, countCloses, List.cons_append,
    List.countP_cons, List.countP_append, List.countP_nil, h]
  simp

theorem countScheduleRuns_watch_reload (bs : List ChangeBatch) :
    countScheduleRuns (watch_reload bs) = bs.length + 1 := by
  have h := countScheduleRuns_watchLoop 0 bs
  simp only [countScheduleRuns] at h
  simp only [watch_reload, watch_reload_tryBody, countScheduleRuns, List.cons_append,
    List.countP_cons, List.countP_append, List.countP_nil, h]
  simp

theorem getLast_append_singleton {α : Type} (l : List α) (a : α) :
    (l ++ [a]).getLast? = some a := by
  induction l with
  | nil => rfl
  | cons x xs ih => rw [List.cons_append, List.getLast?_cons, ih]; rfl

theorem runOk_implies_take (tr : List WEvent) :
    ∀ n : Nat, runOk n tr = true → ∀ p : Nat, (tr.take p).foldl runStep n ≤ 1 := by
  induction tr with
  | nil =>
      intro n h p
      simp [List.take_nil, List.foldl_nil]
      simpa [runOk] using h
  | cons e rest ih =>
      intro n h p
      simp [runOk, Bool.and_eq_true] at h
      cases p with
      | zero => simpa [List.take_zero, List.foldl_nil] using h.1
      | succ q =>
          rw [List.take_succ_cons, List.foldl_cons]
          exact ih (runStep n e) h.2 q

theorem runOk_watchLoop (bs : List ChangeBatch) :
    runOk 1 (watchLoop 0 bs ++ [WEvent.closeWorker 0]) = true := by
  induction bs with
  | nil => decide
  | cons b rest ih => simpa [watchLoop, runOk, runStep] using ih

theorem runOk_watch_reload (bs : List ChangeBatch) :
    runOk 0 (watch_reload bs) = true := by
  have h := runOk_watchLoop bs
  simpa [watch_reload, watch_reload_tryBody, runOk, runStep] using h

theorem loopStopFlag_eq_loopExited (evs : List ExtEvent) :
    ∀ b : Bool, loopStopFlag (watchLoopRun b evs) = loopExited (watchLoopRun b evs) := by
  induction evs with
  | nil => intro b; cases b <;> rfl
  | cons e rest ih =>
      intro b
      cases b with
      | true => rfl
      | false => cases e with
        | signal s => exact ih (worker_on_stop s false)
        | fileChange batch => exact ih false

theorem cli_launched (check_health : Nat → Int) (opts : CliOpts) (h : opts.check = false) :
    cli check_health opts =
      CliResult.launched
        (List.replicate (spawnCount opts.workers) (LaunchEvent.spawnProcess (entryFor opts)) ++
          [LaunchEvent.runInCaller (entryFor opts)]) := by
  cases hw : opts.watch <;> simp [cli, entryFor, h, hw]

theorem countSpawn_replicate_spawn (n : Nat) (inv : Invocation) :
    countSpawn (List.replicate n (LaunchEvent.spawnProcess inv)) = n := by
  induction n with
  | zero => rfl
  | succ k ih => simp [List.replicate_succ, countSpawn, List.countP_cons] at ih ⊢; omega

theorem countCaller_replicate_spawn (n : Nat) (inv : Invocation) :
    countCaller (List.replicate n (LaunchEvent.spawnProcess inv)) = 0 := by
  induction n with
  | zero => rfl
  | succ k ih =>
      simp only [List.replicate_succ, countCaller, List.countP_cons] at ih ⊢
      simp [ih]

theorem spawnCount_eq (k : Int) (hk : 1 ≤ k) : spawnCount k = (k - 1).toNat := by
  unfold spawnCount
  split <;> omega

theorem countSpawn_fanout (n : Nat) (inv : Invocation) :
    countSpawn
      (List.replicate n (LaunchEvent.spawnProcess inv) ++ [LaunchEvent.runInCaller inv]) = n := by
  have h := countSpawn_replicate_spawn n inv
  simp only [countSpawn, List.countP_append, List.countP_cons, List.countP_nil] at h ⊢
  simp [h]

theorem countCaller_fanout (n : Nat) (inv : Invocation) :
    countCaller
      (List.replicate n (LaunchEvent.spawnProcess inv) ++ [LaunchEvent.runInCaller inv]) = 1 := by
  have h := countCaller_replicate_spawn n inv
  simp only [countCaller, List.countP_append, List.countP_cons, List.countP_nil] at h ⊢
  simp [h]

theorem length_fanout (n : Nat) (inv : Invocation) :
    (List.replicate n (LaunchEvent.spawnProcess inv) ++ [LaunchEvent.runInCaller inv]).length =
      n + 1 := by
  simp

theorem invOf_fanout (n : Nat) (inv : Invocation) :
    ∀ e ∈ List.replicate n (LaunchEvent.spawnProcess inv) ++ [LaunchEvent.runInCaller inv],
      invOf e = inv := by
  intro e he
  rcases List.mem_append.mp he with h | h
  · rw [List.eq_of_mem_replicate h]; rfl
  · rw [List.mem_singleton.mp h]; rfl

/-! ## Claim theorems -/

/-- Claim C3: for every signal delivered to the worker's stop hook
`worker_on_stop`, the reload signal `SIGUSR1` leaves the stop event
unchanged (never sets it), any other signal sets it, and repeated
deliveries are idempotent with no other effect. -/
theorem worker_on_stop_disambiguates (s : Signal) (b : Bool) :
    worker_on_stop Signal.SIGUSR1 b = b ∧
    (s ≠ Signal.SIGUSR1 → worker_on_stop s b = true) ∧
    worker_on_stop s (worker_on_stop s b) = worker_on_stop s b := by
  refine ⟨by simp [worker_on_stop], fun h => by simp [worker_on_stop, h], ?_⟩
  by_cases h : s = Signal.SIGUSR1 <;> simp [worker_on_stop, h]

/-- Witness for C3 at the concrete signal `SIGINT` and unset stop event. -/
theorem worker_on_stop_disambiguates_witness :
    worker_on_stop Signal.SIGUSR1 false = false ∧
    worker_on_stop Signal.SIGINT false = true ∧
    worker_on_stop Signal.SIGINT (worker_on_stop Signal.SIGINT false) =
      worker_on_stop Signal.SIGINT false := by
  have h := worker_on_stop_disambiguates Signal.SIGINT false
  exact ⟨h.1, h.2.1 (by decide), h.2.2⟩

/-- Claim C7: the stop event is single-shot — the stop hook never clears a
set event, and the watch loop over change batches terminates exactly when
the stop event is set: started with the event set it exits at once, and in
any run the loop has exited if and only if the stop event is set. -/
theorem stop_event_single_shot_terminates_loop :
    (∀ s, worker_on_stop s true = true) ∧
    (∀ evs, watchLoopRun true evs = LoopOutcome.exited true) ∧
    (∀ (b : Bool) (evs : List ExtEvent),
      loopStopFlag (watchLoopRun b evs) = loopExited (watchLoopRun b evs)) := by
  refine ⟨fun s => ?_, fun evs => by cases evs <;> rfl,
    fun b evs => loopStopFlag_eq_loopExited evs b⟩
  unfold worker_on_stop
  split <;> rfl

/-- Counterexample to claim C1: on one change batch, `watch_reload`
constructs exactly one worker handle, not the claimed N + 1 = 2 distinct
handles — the loop re-runs the same handle instead of creating a fresh
one. -/
theorem watch_reload_one_create_not_two :
    countCreates (watch_reload [⟨[0]⟩]) = 1 ∧
    countCreates (watch_reload [⟨[0]⟩]) ≠ 1 + 1 := by
  decide

/-- Claim C1 (amended): in watch mode, given a sequence of N change
batches followed by the stop event, the controller constructs exactly one
worker handle, closes it N + 1 times, and schedules its cooperative run
N + 1 times before returning: on each batch it signals the reload signal,
awaits the close of the handle, and schedules a new run of that same
handle, so the handle is run again after it has been closed. -/
theorem watch_reload_reuses_single_worker (batches : List ChangeBatch) :
    countCreates (watch_reload batches) = 1 ∧
    countCloses (watch_reload batches) = batches.length + 1 ∧
    countScheduleRuns (watch_reload batches) = batches.length + 1 ∧
    (batches ≠ [] →
      ∃ l1 l2, watch_reload batches = l1 ++ WEvent.closeWorker 0 :: l2 ∧
        WEvent.scheduleRun 0 ∈ l2) := by
  refine ⟨countCreates_watch_reload batches, countCloses_watch_reload batches,
    countScheduleRuns_watch_reload batches, fun h => ?_⟩
  obtain ⟨b, rest, rfl⟩ : ∃ b rest, batches = b :: rest := by
    cases batches with
    | nil => exact absurd rfl h
    | cons b rest => exact ⟨b, rest, rfl⟩
  refine ⟨[WEvent.createWorker 0, WEvent.setOnStop 0, WEvent.scheduleRun 0,
    WEvent.printReload, WEvent.handleSig 0 Signal.SIGUSR1],
    WEvent.scheduleRun 0 :: (watchLoop 0 rest ++ [WEvent.closeWorker 0]), ?_, ?_⟩
  · simp [watch_reload, watch_reload_tryBody, watchLoop]
  · exact List.mem_cons_self _ _

/-- Witness for C1 (amended) at the concrete one-batch input. -/
theorem watch_reload_reuses_single_worker_witness :
    countCreates (watch_reload [⟨[1]⟩]) = 1 ∧
    countCloses (watch_reload [⟨[1]⟩]) = 2 ∧
    countScheduleRuns (watch_reload [⟨[1]⟩]) = 2 ∧
    (∃ l1 l2, watch_reload [⟨[1]⟩] = l1 ++ WEvent.closeWorker 0 :: l2 ∧
      WEvent.scheduleRun 0 ∈ l2) := by
  have h := watch_reload_reuses_single_worker [⟨[1]⟩]
  exact ⟨h.1, h.2.1, h.2.2.1, h.2.2.2 (by decide)⟩

/-- Counterexample to claim C4: with one change batch the only (hence
currently-live) worker handle has been closed twice before the controller
returns — once in the loop body and once in the `finally` block — not
exactly once. -/
theorem watch_reload_double_close_on_one_batch :
    countCloses (watch_reload [⟨[2]⟩]) = 2 ∧
    countCloses (watch_reload [⟨[2]⟩]) ≠ 1 := by
  decide

/-- Claim C4 (amended): whenever the controller returns — normal exit, or
an error propagating from any point after the worker handle is
constructed — its very last action is closing the live worker handle (it
is closed at least once, the `finally` block guaranteeing release), and
within each reload cycle the current run is fully closed before the next
run is scheduled; the single reused handle may however accumulate more
than one close over the whole run. -/
theorem watch_reload_always_closes_before_return (batches : List ChangeBatch) (p : Nat) :
    (watch_reload batches).getLast? = some (WEvent.closeWorker 0) ∧
    (watch_reload_err batches p).getLast? = some (WEvent.closeWorker 0) ∧
    1 ≤ countCloses (watch_reload batches) ∧
    1 ≤ countCloses (watch_reload_err batches p) ∧
    (∀ b rest, watchLoop 0 (b :: rest) =
      WEvent.printReload :: WEvent.handleSig 0 Signal.SIGUSR1 ::
        WEvent.closeWorker 0 :: WEvent.scheduleRun 0 :: watchLoop 0 rest) := by
  refine ⟨?_, ?_, ?_, ?_, fun _ _ => rfl⟩
  · rw [watch_reload, ← List.cons_append]
    exact getLast_append_singleton _ _
  · rw [watch_reload_err, ← List.cons_append]
    exact getLast_append_singleton _ _
  · rw [countCloses_watch_reload]
    omega
  · simp only [watch_reload_err, countCloses, List.countP_cons, List.countP_append,
      List.countP_nil]
    simp

/-- Claim C5: at every observable instant of a watch-mode run at most one
worker run is scheduled or running — every intermediate live-run count
along the trace is at most 1 — and change batches are processed strictly
in arrival order, each full reload cycle (notice, reload signal, awaited
close, new scheduled run) completing before the next batch is handled. -/
theorem watch_reload_at_most_one_running (batches : List ChangeBatch) (p : Nat) :
    runningCount ((watch_reload batches).take p) ≤ 1 ∧
    (∀ b rest, watchLoop 0 (b :: rest) =
      WEvent.printReload :: WEvent.handleSig 0 Signal.SIGUSR1 ::
        WEvent.closeWorker 0 :: WEvent.scheduleRun 0 :: watchLoop 0 rest) :=
  ⟨runOk_implies_take (watch_reload batches) 0 (runOk_watch_reload batches) p,
   fun _ _ => rfl⟩

/-- Claim C2: with `workers = k ≥ 1` and `--check` unset, in plain and
watch mode alike, `cli` performs exactly `k − 1` process spawns plus one
in-caller execution — `k` invocations in total — and every one of them
carries the same selected entry point with the same worker settings. -/
theorem fanout_runs_k_invocations (check_health : Nat → Int) (opts : CliOpts) (k : Int)
    (hk : 1 ≤ k) (hw : opts.workers = k) (hc : opts.check = false) :
    countSpawn (launchEvents (cli check_health opts)) = (k - 1).toNat ∧
    countCaller (launchEvents (cli check_health opts)) = 1 ∧
    (launchEvents (cli check_health opts)).length = k.toNat ∧
    ∀ e ∈ launchEvents (cli check_health opts), invOf e = entryFor opts := by
  rw [cli_launched check_health opts hc]
  subst hw
  simp only [launchEvents]
  rw [spawnCount_eq opts.workers hk] at *
  refine ⟨countSpawn_fanout _ _, countCaller_fanout _ _, ?_, invOf_fanout _ _⟩
  rw [length_fanout]
  omega

/-- Witness for C2 at three workers in plain mode. -/
theorem fanout_runs_k_invocations_witness :
    countSpawn (launchEvents (cli (fun _ => 0) ⟨7, none, false, none, 3⟩)) =
      ((3 : Int) - 1).toNat ∧
    countCaller (launchEvents (cli (fun _ => 0) ⟨7, none, false, none, 3⟩)) = 1 ∧
    (launchEvents (cli (fun _ => 0) ⟨7, none, false, none, 3⟩)).length = (3 : Int).toNat := by
  have h := fanout_runs_k_invocations (fun _ => 0) ⟨7, none, false, none, 3⟩ 3
    (by decide) rfl rfl
  exact ⟨h.1, h.2.1, h.2.2.1⟩

/-- Claim C6: when `--check` is set, `cli` short-circuits to the external
health-check routine: it exits with exactly the routine's return value on
the given settings, launches nothing (no spawn, no worker construction),
whatever the burst, watch and workers options are. -/
theorem check_short_circuits (check_health : Nat → Int) (opts : CliOpts)
    (avail : Bool) (batches : List ChangeBatch) (h : opts.check = true) :
    cli check_health opts = CliResult.exitWith (check_health opts.worker_settings) ∧
    countSpawn (launchEvents (cli check_health opts)) = 0 ∧
    runCli avail batches check_health opts =
      CliOutcome.exited (check_health opts.worker_settings) := by
  simp [cli, runCli, h, launchEvents, countSpawn]

/-- Witness for C6 with a routine returning 6 and watch and workers set. -/
theorem check_short_circuits_witness :
    cli (fun n => n + 1) ⟨5, some true, true, some "d", 4⟩ = CliResult.exitWith 6 ∧
    countSpawn (launchEvents (cli (fun n => n + 1) ⟨5, some true, true, some "d", 4⟩)) = 0 ∧
    runCli false [⟨[0]⟩] (fun n => n + 1) ⟨5, some true, true, some "d", 4⟩ =
      CliOutcome.exited 6 := by
  have h := check_short_circuits (fun n => n + 1) ⟨5, some true, true, some "d", 4⟩
    false [⟨[0]⟩] rfl
  exact ⟨h.1, h.2.1, h.2.2⟩

/-- Claim C8: in plain run mode the burst option is bound tri-state — an
unset burst yields the empty keyword-override set, an explicit value
yields the single override binding burst to that value — and with one
worker and no watch exactly one blocking run occurs in the calling
process. -/
theorem plain_run_burst_binding (check_health : Nat → Int) (opts : CliOpts)
    (h1 : opts.check = false) (h2 : opts.watch = none) :
    bindKwargs none = [] ∧
    (∀ v : Bool, bindKwargs (some v) = [("burst", v)]) ∧
    (opts.workers = 1 →
      launchEvents (cli check_health opts) =
        [LaunchEvent.runInCaller
          (Invocation.runWorkerEntry opts.worker_settings (bindKwargs opts.burst))]) := by
  refine ⟨rfl, fun v => rfl, fun hw => ?_⟩
  rw [cli_launched check_health opts h1]
  simp [launchEvents, spawnCount, hw, entryFor, h2]

/-- Witness for C8 with burst explicitly false and one worker. -/
theorem plain_run_burst_binding_witness :
    bindKwargs none = [] ∧
    bindKwargs (some false) = [("burst", false)] ∧
    launchEvents (cli (fun _ => 0) ⟨9, some false, false, none, 1⟩) =
      [LaunchEvent.runInCaller (Invocation.runWorkerEntry 9 (bindKwargs (some false)))] := by
  have h := plain_run_burst_binding (fun _ => 0) ⟨9, some false, false, none, 1⟩ rfl rfl
  exact ⟨h.1, h.2.1 false, h.2.2 rfl⟩

/-- Claim C9: absence of the optional watcher library is fatal exactly
when watch mode is requested — in watch mode the caller's run ends in
an ImportError when the library is missing, while health-check and plain
run modes behave identically whether or not the watcher library is
available (they never attempt to load it). -/
theorem watcher_required_only_for_watch_mode (check_health : Nat → Int)
    (opts : CliOpts) (batches : List ChangeBatch) :
    ((opts.check = true ∨ opts.watch = none) →
      runCli true batches check_health opts = runCli false batches check_health opts) ∧
    (∀ path : String, opts.check = false → opts.watch = some path →
      runCli false batches check_health opts =
        CliOutcome.callerRan RunOutcome.importError) := by
  constructor
  · rintro (h | h)
    · simp [runCli, h]
    · by_cases hc : opts.check
      · simp [runCli, hc]
      · simp [runCli, hc, entryFor, h, execInvocation]
  · intro path hc hw
    simp [runCli, hc, entryFor, hw, execInvocation]

/-- Witness for C9: plain mode agrees for both availabilities, and watch
mode without the library ends in an import error. -/
theorem watcher_required_only_for_watch_mode_witness :
    runCli true [] (fun _ => 0) ⟨7, none, false, none, 1⟩ =
      runCli false [] (fun _ => 0) ⟨7, none, false, none, 1⟩ ∧
    runCli false [] (fun _ => 0) ⟨7, none, false, some "app", 1⟩ =
      CliOutcome.callerRan RunOutcome.importError := by
  refine ⟨(watcher_required_only_for_watch_mode (fun _ => 0) ⟨7, none, false, none, 1⟩ []).1
    (Or.inr rfl), ?_⟩
  exact (watcher_required_only_for_watch_mode (fun _ => 0)
    ⟨7, none, false, some "app", 1⟩ []).2 "app" rfl rfl

/-- Claim C10: for every workers value at most 1 — including 0 and
negative values, which the code does not reject — the launcher spawns no
sibling process and still executes the selected entry point exactly once
in the calling process. -/
theorem low_worker_count_no_spawn (check_health : Nat → Int) (opts : CliOpts)
    (h1 : opts.check = false) (h2 : opts.workers ≤ 1) :
    countSpawn (launchEvents (cli check_health opts)) = 0 ∧
    launchEvents (cli check_health opts) = [LaunchEvent.runInCaller (entryFor opts)] := by
  rw [cli_launched check_health opts h1]
  have hs : spawnCount opts.workers = 0 := by
    unfold spawnCount
    split <;> omega
  simp [launchEvents, hs, countSpawn, List.countP_cons]

/-- Witness for C10 at the negative workers value −3. -/
theorem low_worker_count_no_spawn_witness :
    countSpawn (launchEvents (cli (fun _ => 0) ⟨4, none, false, none, -3⟩)) = 0 ∧
    launchEvents (cli (fun _ => 0) ⟨4, none, false, none, -3⟩) =
      [LaunchEvent.runInCaller (entryFor ⟨4, none, false, none, -3⟩)] :=
  low_worker_count_no_spawn (fun _ => 0) ⟨4, none, false, none, -3⟩ rfl (by decide)

end Arq
